import Mathlib

/-!
# Verification of the mcg end-to-end browser verification harness

This file gives a shallow embedding of the repository's two verification
scripts (`jules-scratch/verification/verify_bets.py` and
`jules-scratch/verification/verify_realtime_updates.py`) together with a
model of the harness core they invoke (browser session manager, condition
poller, interaction step executor, scenario runner).  The scripts are
embedded from the source; the core primitives they call live in the
external automation library and are modelled from the specification.
-/

set_option autoImplicit false

namespace MCG

/-! ### DOM data model -/

/-- An element of the rendered DOM: its ARIA role, accessible name, text
content and visibility. -/
structure Element where
  role : String
  name : String
  text : String
  visible : Bool
deriving DecidableEq, Repr

/-- A rendered DOM is a flat list of elements. -/
abbrev Dom := List Element

/-- Modelled from the spec: the automation boundary's
`findByRole(role, name) -> ElementHandle[]` (section 6), resolving a semantic
(role, accessible-name) selector to its match set in a DOM. -/
def getByRole (d : Dom) (role name : String) : List Element :=
  d.filter (fun e => e.role == role && e.name == name)

/-- Boolean test that `pat` is a prefix of `l`. -/
def prefixOfB : List Char → List Char → Bool
  | [], _ => true
  | _ :: _, [] => false
  | a :: as, b :: bs => a == b && prefixOfB as bs

/-- Boolean test that `pat` occurs as a contiguous substring of `l`. -/
def subOfB (pat : List Char) : List Char → Bool
  | [] => prefixOfB pat []
  | c :: cs => prefixOfB pat (c :: cs) || subOfB pat cs

/-- `containsFrag t frag` holds when the text `t` contains the fragment
`frag` as a substring (the matching used by `get_by_text`). -/
def containsFrag (t frag : String) : Bool :=
  subOfB frag.data t.data

/-- Modelled from the spec: resolution of the text locator `get_by_text`,
returning every element whose text contains the fragment. -/
def getByText (d : Dom) (frag : String) : List Element :=
  d.filter (fun e => containsFrag e.text frag)

/-! ### Condition poller

Modelled from the spec (section 4.2): the repository's scripts call the
automation library's wait-and-assert primitives, whose polling loop is not
under `src/`.  The poller re-evaluates the predicate on a fixed interval;
it performs one final evaluation once the deadline has been reached, so
that a predicate that became true strictly before the timeout is never
missed, and raises `TimeoutExceeded` at the first poll instant at or after
the timeout. -/

/-- Result of one poll loop: success at elapsed time `t`, or a timeout
raised at elapsed time `t`. -/
inductive PollOut where
  | ok (t : Nat)
  | timedOut (t : Nat)
deriving DecidableEq, Repr

/-- `pollAux pred i n t` evaluates `pred` at times `t, t+i, …, t+n*i`,
returning the first success, or a timeout at the final instant. -/
def pollAux (pred : Nat → Bool) (i : Nat) : Nat → Nat → PollOut
  | 0, t => if pred t then .ok t else .timedOut t
  | n + 1, t => if pred t then .ok t else pollAux pred i n (t + i)

/-- Number of polling intervals needed to reach the timeout: `⌈T / i⌉`. -/
def numPolls (timeout i : Nat) : Nat := (timeout + i - 1) / i

/-- Modelled from the spec: `waitFor(predicate, timeout)` (section 4.2).
`pred` receives the elapsed time since the wait began; the predicate is
polled every `i` time units starting immediately. -/
def waitFor (pred : Nat → Bool) (timeout i : Nat) : PollOut :=
  pollAux pred i (numPolls timeout i) 0

/-- Whether a poll succeeded. -/
def PollOut.found : PollOut → Bool
  | .ok _ => true
  | .timedOut _ => false

/-- The elapsed time at which the poll returned or raised. -/
def PollOut.time : PollOut → Nat
  | .ok t => t
  | .timedOut t => t

/-! ### The environment, steps and the scenario runner

The two scripts drive an external application through the automation
boundary.  The environment `Env` records everything external the run can
observe: the DOM rendered by the application at each instant, whether a
navigation to a given URL succeeds and how long it takes, and whether the
browser launches. -/

/-- The external world a run executes against. `dom t` is the DOM rendered
at absolute time `t` (the application updates asynchronously, so the DOM is
time-dependent); `gotoOk u` is whether navigation to `u` succeeds;
`navDur u` is how long that navigation takes; `launchOk` is whether the
browser engine launches. -/
structure Env where
  dom : Nat → Dom
  gotoOk : String → Bool
  navDur : String → Nat
  launchOk : Bool

/-- Playwright's default navigation timeout (ms), bounding every
navigation-settle wait. -/
def navTimeout : Nat := 30000

/-- Playwright's default assertion timeout (ms), used by
`expect(...).to_be_visible()` when no explicit timeout is passed. -/
def defaultExpectTimeout : Nat := 5000

/-- The poller's fixed polling interval (ms). -/
def pollInterval : Nat := 100

/-- One atomic action of a run, as issued by the scripts: the scenario
steps of the spec's data model plus the session-management primitives that
appear inline in the source (`launch`, `new_page`, `close`, `time.sleep`,
`page.screenshot`). -/
inductive Step where
  | navigate (url : String)
  | click (role name : String)
  | assertVisible (role name : String) (timeout : Nat)
  | assertText (frag : String) (timeout : Nat)
  | sleep (ms : Nat)
  | screenshot (path : String)
  | launch (headless : Bool)
  | newPage
  | close
deriving DecidableEq, Repr

/-- Runner state: the current absolute time and the log of every action
executed so far, in order. -/
structure RState where
  now : Nat
  log : List Step
deriving DecidableEq, Repr

/-- The initial runner state. -/
def initState : RState := { now := 0, log := [] }

/-- The harness error taxonomy (spec section 7). -/
inductive Err where
  | LaunchFailure
  | TimeoutExceeded
  | ElementNotFound
  | AmbiguousSelector
  | NavigationFailure
deriving DecidableEq, Repr

/-- Outcome of (part of) a run: success, or an uncaught error.  In both
cases the state reached is retained, so the effects actually performed
(the log) remain observable. -/
inductive Outcome where
  | ok (s : RState)
  | fail (e : Err) (s : RState)
deriving DecidableEq, Repr

/-- The state reached by an outcome, successful or not. -/
def Outcome.state : Outcome → RState
  | .ok s => s
  | .fail _ s => s

/-- Whether an outcome is a success. -/
def Outcome.isOk : Outcome → Bool
  | .ok _ => true
  | .fail _ _ => false

/-- The built-in predicate "an element matching (role, name) is visible"
(spec section 4.2), evaluated against the DOM at absolute time `t`. -/
def visibleAt (env : Env) (role name : String) (t : Nat) : Bool :=
  (getByRole (env.dom t) role name).any (·.visible)

/-- The built-in predicate "an element whose text contains `frag` is
visible" (spec section 4.2), at absolute time `t`. -/
def textVisibleAt (env : Env) (frag : String) (t : Nat) : Bool :=
  (getByText (env.dom t) frag).any (·.visible)

/-- Modelled from the spec: the interaction step executor
(section 4.3) and the session primitives of the automation boundary
(section 6), which the scripts call but which are not under `src/`.
A `click` resolves its selector against the current DOM and fails
immediately — consuming no time — with `ElementNotFound` on zero matches
and `AmbiguousSelector` on several; an assertion invokes the condition
poller; a navigation settles within the navigation timeout or fails;
`screenshot` writes its file and always succeeds. -/
def execStep (env : Env) (s : RState) : Step → Outcome
  | .navigate url =>
      let s' : RState :=
        { now := s.now + min (env.navDur url) navTimeout
          log := s.log ++ [.navigate url] }
      if env.gotoOk url then .ok s' else .fail .NavigationFailure s'
  | .click role name =>
      let lg := s.log ++ [.click role name]
      match getByRole (env.dom s.now) role name with
      | [] => .fail .ElementNotFound { now := s.now, log := lg }
      | [_] => .ok { now := s.now, log := lg }
      | _ :: _ :: _ => .fail .AmbiguousSelector { now := s.now, log := lg }
  | .assertVisible role name timeout =>
      let lg := s.log ++ [.assertVisible role name timeout]
      match waitFor (fun d => visibleAt env role name (s.now + d)) timeout pollInterval with
      | .ok d => .ok { now := s.now + d, log := lg }
      | .timedOut d => .fail .TimeoutExceeded { now := s.now + d, log := lg }
  | .assertText frag timeout =>
      let lg := s.log ++ [.assertText frag timeout]
      match waitFor (fun d => textVisibleAt env frag (s.now + d)) timeout pollInterval with
      | .ok d => .ok { now := s.now + d, log := lg }
      | .timedOut d => .fail .TimeoutExceeded { now := s.now + d, log := lg }
  | .sleep ms => .ok { now := s.now + ms, log := s.log ++ [.sleep ms] }
  | .screenshot path => .ok { now := s.now, log := s.log ++ [.screenshot path] }
  | .launch h =>
      let lg := s.log ++ [.launch h]
      if env.launchOk then .ok { now := s.now, log := lg }
      else .fail .LaunchFailure { now := s.now, log := lg }
  | .newPage => .ok { now := s.now, log := s.log ++ [.newPage] }
  | .close => .ok { now := s.now, log := s.log ++ [.close] }

/-- Runs a list of steps in order; the first failing step short-circuits
the remaining ones, as an uncaught Python exception does in the source. -/
def runSteps (env : Env) : RState → List Step → Outcome
  | s, [] => .ok s
  | s, st :: rest =>
      match execStep env s st with
      | .ok s' => runSteps env s' rest
      | .fail e s' => .fail e s'

/-! ### The two scripts, embedded from the source -/

/-- The artifact path hard-coded in both scripts. -/
def artifactPath : String := "jules-scratch/verification/verification.png"

/-- The step sequence of `verify_bets(page)` in
`verify_bets.py` lines 4–15: navigate to the fixed URL with the autostart
query parameter, sleep five seconds, take a screenshot. -/
def betsSteps : List Step :=
  [ .navigate "http://localhost:3000/?autostart=true"
  , .sleep 5000
  , .screenshot artifactPath ]

/-- `verify_bets(page)` from `verify_bets.py`. -/
def verify_bets (env : Env) (s : RState) : Outcome :=
  runSteps env s betsSteps

/-- The statements of `main()` in `verify_bets.py` lines 17–22, flattened:
launch the browser headless, open a page, run `verify_bets`, close the
browser.  An exception raised inside `verify_bets` propagates past
`browser.close()`, which is then never executed (the `with` block only
stops the Playwright driver). -/
def mainBetsSteps : List Step :=
  [Step.launch true, Step.newPage] ++ betsSteps ++ [Step.close]

/-- `main()` from `verify_bets.py`. -/
def main_bets (env : Env) : Outcome :=
  runSteps env initState mainBetsSteps

/-- The step sequence of `test_realtime_updates(page)` in
`verify_realtime_updates.py` lines 3–33: navigate to the root URL, click
the "Poker Online" link, assert the "Poker Online" heading is visible,
click the "Connect" button, assert the "Player" cell is visible within
10 s, assert the text "Pot: " is visible, take a screenshot. -/
def realtimeSteps : List Step :=
  [ .navigate "http://127.0.0.1:3000"
  , .click "link" "Poker Online"
  , .assertVisible "heading" "Poker Online" defaultExpectTimeout
  , .click "button" "Connect"
  , .assertVisible "cell" "Player" 10000
  , .assertText "Pot: " defaultExpectTimeout
  , .screenshot artifactPath ]

/-- `test_realtime_updates(page)` from `verify_realtime_updates.py`. -/
def test_realtime_updates (env : Env) : Outcome :=
  runSteps env initState realtimeSteps

/-! ### Observations over a run -/

/-- Projects a screenshot step to its path. -/
def pickShot : Step → Option String
  | .screenshot p => some p
  | _ => none

/-- The screenshot paths recorded in a log, in order. -/
def shotPaths (l : List Step) : List String := l.filterMap pickShot

/-- How many screenshots a run wrote. -/
def countShots (o : Outcome) : Nat := (shotPaths o.state.log).length

/-- Projects a browser-close step. -/
def pickClose : Step → Option Unit
  | .close => some ()
  | _ => none

/-- How many times a run closed the browser. -/
def countClose (o : Outcome) : Nat := (o.state.log.filterMap pickClose).length

/-- Projects a navigation step to its URL. -/
def pickNav : Step → Option String
  | .navigate u => some u
  | _ => none

/-- The navigation URLs appearing in a list of steps, in order. -/
def navUrls (l : List Step) : List String := l.filterMap pickNav

/-- Projects a launch step to its headless flag. -/
def pickLaunch : Step → Option Bool
  | .launch h => some h
  | _ => none

/-- The headless flags of the launch steps in a list of steps. -/
def launchFlags (l : List Step) : List Bool := l.filterMap pickLaunch

/-! ### Suspension bounds -/

/-- The explicit bound on the time a single step may suspend: the
navigation timeout for `navigate`, the assertion timeout plus at most one
polling interval for the poller-gated assertions, the sleep duration for
`sleep`, and zero for the non-suspending steps. -/
def suspBound : Step → Nat
  | .navigate _ => navTimeout
  | .assertVisible _ _ timeout => timeout + pollInterval
  | .assertText _ timeout => timeout + pollInterval
  | .sleep ms => ms
  | _ => 0

/-! ### Concrete environments for witnesses and counterexamples -/

/-- An application that renders an empty DOM forever; navigation and
launch succeed. -/
def envEmpty : Env :=
  { dom := fun _ => [], gotoOk := fun _ => true, navDur := fun _ => 0, launchOk := true }

/-- An environment whose every navigation fails. -/
def envBadNav : Env :=
  { dom := fun _ => [], gotoOk := fun _ => false, navDur := fun _ => 0, launchOk := true }

/-- The link element of the happy-path DOM. -/
def linkElem : Element := { role := "link", name := "Poker Online", text := "", visible := true }

/-- A DOM rendering every element the happy-path scenario needs. -/
def domHappy : Dom :=
  [ linkElem
  , { role := "heading", name := "Poker Online", text := "", visible := true }
  , { role := "button", name := "Connect", text := "", visible := true }
  , { role := "cell", name := "Player", text := "", visible := true }
  , { role := "generic", name := "pot", text := "Pot: 0", visible := true } ]

/-- A well-behaved application: the happy-path DOM is rendered at every
instant, navigation and launch succeed. -/
def envHappy : Env :=
  { dom := fun _ => domHappy, gotoOk := fun _ => true, navDur := fun _ => 0, launchOk := true }

/-- An application rendering two identical links, making the link selector
ambiguous. -/
def envDouble : Env :=
  { dom := fun _ => [linkElem, linkElem], gotoOk := fun _ => true, navDur := fun _ => 0
    launchOk := true }

/-- The predicate "the elapsed time is at least 7". -/
def predLate : Nat → Bool := fun t => decide (7 ≤ t)

/-- The predicate that never becomes true. -/
def predNever : Nat → Bool := fun _ => false

/-- A file system mapping paths to file contents. -/
def FS : Type := String → Option String

/-- Writing a raster artifact: the file at `p` is created, or overwritten
if it already exists; no other path changes. -/
def writeShot (fs : FS) (p img : String) : FS :=
  fun q => if q = p then some img else fs q

/-- Replays the screenshot writes of an executed log onto a file system,
every capture producing the image `img`. -/
def applyLog (img : String) : List Step → FS → FS
  | [], fs => fs
  | st :: rest, fs =>
      match st with
      | .screenshot p => applyLog img rest (writeShot fs p img)
      | _ => applyLog img rest fs

/-- A file system with an existing artifact file at the hard-coded path. -/
def fsOld : FS := fun q => if q = artifactPath then some "old" else none


/-! ### Lemmas and claim theorems -/

/-! ### Poller lemmas -/

theorem pollAux_never (pred : Nat → Bool) (i : Nat)
    (hfalse : ∀ t, pred t = false) :
    ∀ n t, pollAux pred i n t = .timedOut (t + n * i) := by
  intro n
  induction n with
  | zero => intro t; simp [pollAux, hfalse]
  | succ m ih =>
      intro t
      have h1 : pollAux pred i (m + 1) t = pollAux pred i m (t + i) := by
        simp [pollAux, hfalse]
      rw [h1, ih (t + i)]
      congr 1
      ring

theorem pollAux_found (pred : Nat → Bool) (i : Nat) (t0 : Nat)
    (hmono : ∀ s, t0 ≤ s → pred s = true) :
    ∀ n t, t0 ≤ t + n * i → (pollAux pred i n t).found = true := by
  intro n
  induction n with
  | zero =>
      intro t ht
      simp only [Nat.zero_mul, Nat.add_zero] at ht
      simp [pollAux, hmono t ht, PollOut.found]
  | succ m ih =>
      intro t ht
      by_cases hp : pred t = true
      · simp [pollAux, hp, PollOut.found]
      · have h1 : pollAux pred i (m + 1) t = pollAux pred i m (t + i) := by
          simp [pollAux, hp]
        rw [h1]
        apply ih (t + i)
        have : t + (m + 1) * i = t + i + m * i := by ring
        omega

theorem pollAux_time_le (pred : Nat → Bool) (i : Nat) :
    ∀ n t, (pollAux pred i n t).time ≤ t + n * i := by
  intro n
  induction n with
  | zero =>
      intro t
      by_cases hp : pred t = true <;> simp [pollAux, hp, PollOut.time]
  | succ m ih =>
      intro t
      by_cases hp : pred t = true
      · simp [pollAux, hp, PollOut.time]
      · have h1 : pollAux pred i (m + 1) t = pollAux pred i m (t + i) := by
          simp [pollAux, hp]
        rw [h1]
        calc (pollAux pred i m (t + i)).time ≤ t + i + m * i := ih (t + i)
          _ ≤ t + (m + 1) * i := by have : t + (m + 1) * i = t + i + m * i := by ring
                                    omega

/-- The timeout is reached by `numPolls` intervals: `T ≤ ⌈T/i⌉ * i`. -/
theorem numPolls_mul_ge (timeout i : Nat) (hi : 0 < i) :
    timeout ≤ numPolls timeout i * i := by
  unfold numPolls
  have hd := Nat.div_add_mod (timeout + i - 1) i
  have hm : (timeout + i - 1) % i < i := Nat.mod_lt _ hi
  have hcomm : (timeout + i - 1) / i * i = i * ((timeout + i - 1) / i) := Nat.mul_comm _ _
  omega

/-- `⌈T/i⌉ * i` overshoots the timeout by less than one interval. -/
theorem numPolls_mul_lt (timeout i : Nat) (hi : 0 < i) :
    numPolls timeout i * i < timeout + i := by
  unfold numPolls
  have hd := Nat.div_add_mod (timeout + i - 1) i
  have hcomm : (timeout + i - 1) / i * i = i * ((timeout + i - 1) / i) := Nat.mul_comm _ _
  omega

/-! ### Runner lemmas -/

/-- Every step appends exactly itself to the log, whether it succeeds or fails. -/
theorem execStep_log (env : Env) (s : RState) (st : Step) :
    (execStep env s st).state.log = s.log ++ [st] := by
  cases st <;> simp only [execStep] <;> (repeat' split) <;> rfl

/-- A successful run executed every step, in order. -/
theorem runSteps_ok_log (env : Env) :
    ∀ (steps : List Step) (s s' : RState),
      runSteps env s steps = .ok s' → s'.log = s.log ++ steps := by
  intro steps
  induction steps with
  | nil =>
      intro s s' h
      simp only [runSteps] at h
      cases h
      simp
  | cons st rest ih =>
      intro s s' h
      simp only [runSteps] at h
      cases hex : execStep env s st with
      | ok s1 =>
          rw [hex] at h
          have h1 := ih s1 s' h
          have h2 := execStep_log env s st
          rw [hex] at h2
          simp only [Outcome.state] at h2
          rw [h1, h2]
          simp
      | fail e s1 =>
          rw [hex] at h
          cases h

/-- A run all of whose steps always succeed succeeds and executes them all. -/
theorem runSteps_all_ok (env : Env) :
    ∀ steps : List Step, (∀ (s : RState) (st : Step), st ∈ steps → (execStep env s st).isOk = true) →
      ∀ s : RState, (runSteps env s steps).isOk = true
        ∧ (runSteps env s steps).state.log = s.log ++ steps := by
  intro steps
  induction steps with
  | nil =>
      intro _ s
      simp [runSteps, Outcome.isOk, Outcome.state]
  | cons st rest ih =>
      intro hall s
      simp only [runSteps]
      cases hex : execStep env s st with
      | ok s1 =>
          have h2 := execStep_log env s st
          rw [hex] at h2
          simp only [Outcome.state] at h2
          have := ih (fun s' st' h => hall s' st' (List.mem_cons_of_mem _ h)) s1
          rw [h2] at this
          simpa using this
      | fail e s1 =>
          have := hall s st (List.mem_cons_self _ _)
          rw [hex] at this
          simp [Outcome.isOk] at this

/-- Helper: a list of steps none of which the projection picks contributes
nothing to the projected log. -/
theorem filterMap_none {α : Type} (pick : Step → Option α) :
    ∀ l : List Step, (∀ st ∈ l, pick st = none) → l.filterMap pick = [] := by
  intro l
  induction l with
  | nil => intro _; rfl
  | cons st rest ih =>
      intro h
      simp [List.filterMap_cons, h st (List.mem_cons_self _ _),
        ih (fun st' h' => h st' (List.mem_cons_of_mem _ h'))]

/-- Unfolding `runSteps` over a successful head step. -/
theorem runSteps_cons_ok (env : Env) (st : Step) (rest : List Step) (s s1 : RState)
    (h : execStep env s st = .ok s1) :
    runSteps env s (st :: rest) = runSteps env s1 rest := by
  simp only [runSteps, h]

/-- Unfolding `runSteps` over a failing head step. -/
theorem runSteps_cons_fail (env : Env) (st : Step) (rest : List Step) (s s1 : RState) (e : Err)
    (h : execStep env s st = .fail e s1) :
    runSteps env s (st :: rest) = .fail e s1 := by
  simp only [runSteps, h]

/-- The central log-projection lemma: in a step list `body ++ emit :: tail`
where the projection picks nothing from `body` or `tail`, and where `emit`
and everything in `tail` always succeed, the run's projected log gains
`pick emit` exactly when the run succeeds, and gains nothing otherwise. -/
theorem runSteps_emit {α : Type} (pick : Step → Option α) (env : Env)
    (emit : Step) (tail : List Step)
    (htail : ∀ st ∈ tail, pick st = none)
    (hsafe : ∀ (s : RState) (st : Step), st ∈ emit :: tail → (execStep env s st).isOk = true) :
    ∀ body : List Step, (∀ st ∈ body, pick st = none) →
      ∀ s : RState,
        (runSteps env s (body ++ emit :: tail)).state.log.filterMap pick
          = s.log.filterMap pick
            ++ (if (runSteps env s (body ++ emit :: tail)).isOk then (pick emit).toList else []) := by
  intro body
  induction body with
  | nil =>
      intro _ s
      simp only [List.nil_append]
      have hok := runSteps_all_ok env (emit :: tail) hsafe s
      simp only [hok.1, hok.2, if_true]
      simp [List.filterMap_append, List.filterMap_cons, filterMap_none pick tail htail]
      cases hp : pick emit <;> simp [Option.toList]
  | cons st body' ih =>
      intro hbody s
      rw [List.cons_append]
      cases hex : execStep env s st with
      | ok s1 =>
          rw [runSteps_cons_ok env st _ s s1 hex]
          have h2 := execStep_log env s st
          rw [hex] at h2
          simp only [Outcome.state] at h2
          rw [ih (fun st2 h2 => hbody st2 (List.mem_cons_of_mem _ h2)) s1, h2]
          simp [List.filterMap_append, List.filterMap_cons, hbody st (List.mem_cons_self _ _)]
      | fail e s1 =>
          rw [runSteps_cons_fail env st _ s s1 e hex]
          have h2 := execStep_log env s st
          rw [hex] at h2
          simp only [Outcome.state] at h2
          simp [Outcome.state, Outcome.isOk, h2, List.filterMap_append, List.filterMap_cons,
            hbody st (List.mem_cons_self _ _)]

/-- Every step in a run's log was either already in the starting log or is
one of the scenario's declared steps. -/
theorem runSteps_log_mem (env : Env) :
    ∀ (steps : List Step) (s : RState) (st : Step),
      st ∈ (runSteps env s steps).state.log → st ∈ s.log ∨ st ∈ steps := by
  intro steps
  induction steps with
  | nil =>
      intro s st h
      simp only [runSteps, Outcome.state] at h
      exact Or.inl h
  | cons hd rest ih =>
      intro s st h
      simp only [runSteps] at h
      cases hex : execStep env s hd with
      | ok s1 =>
          rw [hex] at h
          have h2 := execStep_log env s hd
          rw [hex] at h2
          simp only [Outcome.state] at h2
          rcases ih s1 st h with hin | hin
          · rw [h2] at hin
            rcases List.mem_append.mp hin with h3 | h3
            · exact Or.inl h3
            · simp at h3
              subst h3
              exact Or.inr (List.mem_cons_self _ _)
          · exact Or.inr (List.mem_cons_of_mem _ hin)
      | fail e s1 =>
          rw [hex] at h
          simp only [Outcome.state] at h
          have h2 := execStep_log env s hd
          rw [hex] at h2
          simp only [Outcome.state] at h2
          rw [h2] at h
          rcases List.mem_append.mp h with h3 | h3
          · exact Or.inl h3
          · simp at h3
            subst h3
            exact Or.inr (List.mem_cons_self _ _)

/-- A predicate already true when the wait begins satisfies the poller at
its first evaluation. -/
theorem waitFor_now (pred : Nat → Bool) (T i : Nat) (h : pred 0 = true) :
    waitFor pred T i = .ok 0 := by
  unfold waitFor
  cases numPolls T i <;> simp [pollAux, h]

/-- The poller returns or raises within one polling interval past its
timeout. -/
theorem waitFor_time_le (pred : Nat → Bool) (T i : Nat) (hi : 0 < i) :
    (waitFor pred T i).time ≤ T + i := by
  have h1 := pollAux_time_le pred i (numPolls T i) 0
  have h2 := numPolls_mul_lt T i hi
  unfold waitFor
  omega

/-- No single step suspends longer than its explicit bound. -/
theorem execStep_now_le (env : Env) (s : RState) (st : Step) :
    (execStep env s st).state.now ≤ s.now + suspBound st := by
  cases st with
  | navigate url =>
      simp only [execStep, suspBound]
      split <;> simp [Outcome.state]
  | click role name =>
      simp only [execStep, suspBound]
      split <;> simp [Outcome.state]
  | assertVisible role name timeout =>
      simp only [execStep, suspBound]
      split <;> rename_i d hd <;> simp only [Outcome.state] <;>
      · have h1 := waitFor_time_le (fun d => visibleAt env role name (s.now + d))
          timeout pollInterval (by simp [pollInterval])
        rw [hd] at h1
        simp [PollOut.time] at h1
        omega
  | assertText frag timeout =>
      simp only [execStep, suspBound]
      split <;> rename_i d hd <;> simp only [Outcome.state] <;>
      · have h1 := waitFor_time_le (fun d => textVisibleAt env frag (s.now + d))
          timeout pollInterval (by simp [pollInterval])
        rw [hd] at h1
        simp [PollOut.time] at h1
        omega
  | sleep ms => simp [execStep, suspBound, Outcome.state]
  | screenshot path => simp [execStep, suspBound, Outcome.state]
  | launch h => simp only [execStep, suspBound]; split <;> simp [Outcome.state]
  | newPage => simp [execStep, suspBound, Outcome.state]
  | close => simp [execStep, suspBound, Outcome.state]

/-- A whole run suspends no longer than the sum of its steps' bounds. -/
theorem runSteps_now_le (env : Env) :
    ∀ (steps : List Step) (s : RState),
      (runSteps env s steps).state.now ≤ s.now + (steps.map suspBound).sum := by
  intro steps
  induction steps with
  | nil => intro s; simp [runSteps, Outcome.state]
  | cons st rest ih =>
      intro s
      cases hex : execStep env s st with
      | ok s1 =>
          rw [runSteps_cons_ok env st _ s s1 hex]
          have h1 := execStep_now_le env s st
          rw [hex] at h1
          simp only [Outcome.state] at h1
          have h2 := ih s1
          simp only [List.map_cons, List.sum_cons]
          omega
      | fail e s1 =>
          rw [runSteps_cons_fail env st _ s s1 e hex]
          have h1 := execStep_now_le env s st
          rw [hex] at h1
          simp only [Outcome.state] at h1
          simp only [Outcome.state, List.map_cons, List.sum_cons]
          omega

/-! ### Script-level characterizations -/

/-- The screenshots of a `test_realtime_updates` run: exactly one on
success, none on failure. -/
theorem realtime_shots (env : Env) :
    shotPaths (test_realtime_updates env).state.log
      = if (test_realtime_updates env).isOk then [artifactPath] else [] := by
  have h := runSteps_emit pickShot env (.screenshot artifactPath) []
      (by intro st hst; simp at hst)
      (by intro s st hst
          simp at hst
          subst hst
          simp [execStep, Outcome.isOk])
      [ .navigate "http://127.0.0.1:3000"
      , .click "link" "Poker Online"
      , .assertVisible "heading" "Poker Online" defaultExpectTimeout
      , .click "button" "Connect"
      , .assertVisible "cell" "Player" 10000
      , .assertText "Pot: " defaultExpectTimeout ]
      (by decide) initState
  simpa [shotPaths, test_realtime_updates, realtimeSteps, initState, pickShot,
    Option.toList] using h

/-- The screenshots of a `main()` run of `verify_bets.py`: exactly one on
success, none on failure. -/
theorem mainBets_shots (env : Env) :
    shotPaths (main_bets env).state.log
      = if (main_bets env).isOk then [artifactPath] else [] := by
  have h := runSteps_emit pickShot env (.screenshot artifactPath) [.close]
      (by intro st hst; simp at hst; subst hst; rfl)
      (by intro s st hst
          simp at hst
          rcases hst with hst | hst <;> subst hst <;> simp [execStep, Outcome.isOk])
      [ .launch true, .newPage
      , .navigate "http://localhost:3000/?autostart=true"
      , .sleep 5000 ]
      (by decide) initState
  simpa [shotPaths, main_bets, mainBetsSteps, betsSteps, initState, pickShot,
    Option.toList] using h

/-- The browser closes of a `main()` run of `verify_bets.py`: exactly one
on success, none on failure. -/
theorem mainBets_closes (env : Env) :
    (main_bets env).state.log.filterMap pickClose
      = if (main_bets env).isOk then [()] else [] := by
  have h := runSteps_emit pickClose env .close []
      (by intro st hst; simp at hst)
      (by intro s st hst
          simp at hst
          subst hst
          simp [execStep, Outcome.isOk])
      [ .launch true, .newPage
      , .navigate "http://localhost:3000/?autostart=true"
      , .sleep 5000
      , .screenshot artifactPath ]
      (by decide) initState
  simpa [main_bets, mainBetsSteps, betsSteps, initState, pickClose,
    Option.toList] using h

/-! ## The claims -/

/-- Claim C1 is false as stated on the code: a run in which a step raises
short-circuits the remaining statements including the final screenshot, so
no artifact is produced.  Against the always-empty DOM the first click of
`test_realtime_updates` raises, the run's verdict is fail, and zero
screenshot files are written. -/
theorem claim_C1_counterexample :
    (test_realtime_updates envEmpty).isOk = false
    ∧ countShots (test_realtime_updates envEmpty) = 0 := by
  constructor <;> rfl

/-- Claim C1 (amended): each of the two scenario runs produces exactly one
screenshot artifact when it completes without error; when a step or
assertion raises, the remaining steps — including artifact capture — are
short-circuited, and the failing run produces no screenshot. -/
theorem claim_C1_artifact_on_success (env : Env) :
    countShots (test_realtime_updates env)
      = (if (test_realtime_updates env).isOk then 1 else 0)
    ∧ countShots (main_bets env) = (if (main_bets env).isOk then 1 else 0) := by
  constructor
  · unfold countShots
    rw [realtime_shots env]
    cases h : (test_realtime_updates env).isOk <;> simp
  · unfold countShots
    rw [mainBets_shots env]
    cases h : (main_bets env).isOk <;> simp

/-- Claim C2 is false as stated on the code: when a step raises inside
`verify_bets`, the exception propagates past `browser.close()`, which is
then never executed.  Against an environment whose navigation fails, the
run of `main()` fails and the browser is closed zero times, not once. -/
theorem claim_C2_counterexample :
    (main_bets envBadNav).isOk = false ∧ countClose (main_bets envBadNav) = 0 := by
  constructor <;> rfl

/-- Claim C2 (amended): the browser session is closed exactly once, as the
very last action, on runs of `main()` in which every step succeeds; when a
step raises mid-scenario the explicit `browser.close()` is skipped and the
session is closed zero times by the script. -/
theorem claim_C2_release_on_success (env : Env) :
    countClose (main_bets env) = (if (main_bets env).isOk then 1 else 0)
    ∧ ((main_bets env).isOk = true →
        (main_bets env).state.log.getLast? = some Step.close) := by
  constructor
  · unfold countClose
    rw [mainBets_closes env]
    cases h : (main_bets env).isOk <;> simp
  · intro hok
    cases hrun : main_bets env with
    | ok s' =>
        have hl := runSteps_ok_log env mainBetsSteps initState s' hrun
        simp only [hrun, Outcome.state]
        rw [hl]
        rfl
    | fail e s' =>
        rw [hrun] at hok
        simp [Outcome.isOk] at hok

/-- Witness for C2: in the environment with an empty DOM every step of
`main()` succeeds, the session is closed exactly once, and the close is the
final logged action. -/
theorem claim_C2_witness :
    countClose (main_bets envEmpty) = 1
    ∧ (main_bets envEmpty).state.log.getLast? = some Step.close :=
  ⟨(claim_C2_release_on_success envEmpty).1.trans (by rfl),
   (claim_C2_release_on_success envEmpty).2 (by rfl)⟩

/-- Claim C3: the condition poller's contract.  For every positive polling
interval: a predicate that becomes true strictly before the timeout
elapses makes `waitFor` return without error; a predicate that never
becomes true makes it raise `TimeoutExceeded` at an instant no earlier
than the timeout and no later than the timeout plus one polling
interval. -/
theorem claim_C3_waitFor_contract (pred : Nat → Bool) (T i : Nat) (hi : 0 < i) :
    (∀ t0, t0 < T → (∀ t, t0 ≤ t → pred t = true) → (waitFor pred T i).found = true)
    ∧ ((∀ t, pred t = false) →
        waitFor pred T i = .timedOut (numPolls T i * i)
        ∧ T ≤ numPolls T i * i ∧ numPolls T i * i < T + i) := by
  constructor
  · intro t0 ht0 hmono
    apply pollAux_found pred i t0 hmono
    have := numPolls_mul_ge T i hi
    omega
  · intro hfalse
    refine ⟨?_, numPolls_mul_ge T i hi, numPolls_mul_lt T i hi⟩
    have h := pollAux_never pred i hfalse (numPolls T i) 0
    unfold waitFor
    rw [h]
    congr 1
    omega

/-- Witness for C3 at timeout 10 and interval 4: `predLate` becomes true at
7 < 10 and the wait succeeds; `predNever` raises at elapsed time 12, with
10 ≤ 12 < 10 + 4. -/
theorem claim_C3_witness :
    (waitFor predLate 10 4).found = true
    ∧ waitFor predNever 10 4 = PollOut.timedOut 12
    ∧ (10 : Nat) ≤ 12 ∧ (12 : Nat) < 10 + 4 := by
  refine ⟨?_, ?_, by decide, by decide⟩
  · exact (claim_C3_waitFor_contract predLate 10 4 (by decide)).1 7 (by decide)
      (fun t ht => by simpa [predLate] using ht)
  · exact ((claim_C3_waitFor_contract predNever 10 4 (by decide)).2 (fun t => rfl)).1

/-- Claim C4: with a well-behaved application — navigation to the root URL
succeeds, the "Poker Online" link and the "Connect" button each resolve to
a unique element at all times, and the heading, the "Player" cell and the
"Pot: " text are visible at all times — the happy-path scenario succeeds
and its executed log is exactly the declared ordered step sequence
(navigate, click link, assert heading, click Connect, assert cell within
10 s, assert text, one screenshot). -/
theorem claim_C4_happy_path (env : Env)
    (hnav : env.gotoOk "http://127.0.0.1:3000" = true)
    (hlink : ∀ t, ∃ e, getByRole (env.dom t) "link" "Poker Online" = [e])
    (hhead : ∀ t, visibleAt env "heading" "Poker Online" t = true)
    (hconn : ∀ t, ∃ e, getByRole (env.dom t) "button" "Connect" = [e])
    (hcell : ∀ t, visibleAt env "cell" "Player" t = true)
    (hpot : ∀ t, textVisibleAt env "Pot: " t = true) :
    (test_realtime_updates env).isOk = true
    ∧ (test_realtime_updates env).state.log = realtimeSteps
    ∧ countShots (test_realtime_updates env) = 1 := by
  have hall : ∀ (s : RState) (st : Step), st ∈ realtimeSteps →
      (execStep env s st).isOk = true := by
    intro s st hst
    simp [realtimeSteps] at hst
    rcases hst with h | h | h | h | h | h | h <;> subst h
    · simp [execStep, hnav, Outcome.isOk]
    · obtain ⟨e, he⟩ := hlink s.now
      simp [execStep, he, Outcome.isOk]
    · have h0 : visibleAt env "heading" "Poker Online" (s.now + 0) = true := hhead _
      simp only [execStep]
      rw [waitFor_now _ _ _ h0]
      simp [Outcome.isOk]
    · obtain ⟨e, he⟩ := hconn s.now
      simp [execStep, he, Outcome.isOk]
    · have h0 : visibleAt env "cell" "Player" (s.now + 0) = true := hcell _
      simp only [execStep]
      rw [waitFor_now _ _ _ h0]
      simp [Outcome.isOk]
    · have h0 : textVisibleAt env "Pot: " (s.now + 0) = true := hpot _
      simp only [execStep]
      rw [waitFor_now _ _ _ h0]
      simp [Outcome.isOk]
    · simp [execStep, Outcome.isOk]
  have h := runSteps_all_ok env realtimeSteps hall initState
  have h1 : (test_realtime_updates env).isOk = true := h.1
  have h2 : (test_realtime_updates env).state.log = initState.log ++ realtimeSteps := h.2
  refine ⟨h1, ?_, ?_⟩
  · rw [h2]; rfl
  · unfold countShots
    rw [realtime_shots env]
    simp [h1]

/-- Witness for C4: in the environment rendering the happy-path DOM at all
times, the run passes, executes exactly the declared sequence, and writes
one screenshot. -/
theorem claim_C4_witness :
    (test_realtime_updates envHappy).isOk = true
    ∧ (test_realtime_updates envHappy).state.log = realtimeSteps
    ∧ countShots (test_realtime_updates envHappy) = 1 :=
  claim_C4_happy_path envHappy rfl (fun _ => ⟨linkElem, rfl⟩) (fun _ => rfl)
    (fun _ => ⟨{ role := "button", name := "Connect", text := "", visible := true }, rfl⟩)
    (fun _ => rfl) (fun _ => rfl)

/-- Claim C5: a click step whose selector matches zero elements of the
current DOM fails with `ElementNotFound` immediately — the failure state's
clock equals the state's clock, so no timeout is waited out — a selector
matching more than one element fails with `AmbiguousSelector`, and a
failing step makes the whole run fail. -/
theorem claim_C5_click_resolution (env : Env) (s : RState) (role name : String) :
    (getByRole (env.dom s.now) role name = [] →
      execStep env s (.click role name)
        = .fail .ElementNotFound { now := s.now, log := s.log ++ [.click role name] })
    ∧ (∀ (e1 e2 : Element) (more : List Element),
        getByRole (env.dom s.now) role name = e1 :: e2 :: more →
        execStep env s (.click role name)
          = .fail .AmbiguousSelector { now := s.now, log := s.log ++ [.click role name] })
    ∧ (∀ (st : Step) (rest : List Step) (e : Err) (s' : RState),
        execStep env s st = .fail e s' →
        (runSteps env s (st :: rest)).isOk = false) := by
  refine ⟨?_, ?_, ?_⟩
  · intro h
    simp [execStep, h]
  · intro e1 e2 more h
    simp [execStep, h]
  · intro st rest e s' h
    rw [runSteps_cons_fail env st rest s s' e h]
    rfl

/-- Witness for C5: against the empty DOM the "Poker Online" link click
fails with `ElementNotFound` at the unchanged clock, against the DOM with
two identical links it fails with `AmbiguousSelector`, and the
single-click run fails. -/
theorem claim_C5_witness :
    execStep envEmpty initState (.click "link" "Poker Online")
      = .fail .ElementNotFound { now := 0, log := [.click "link" "Poker Online"] }
    ∧ execStep envDouble initState (.click "link" "Poker Online")
      = .fail .AmbiguousSelector { now := 0, log := [.click "link" "Poker Online"] }
    ∧ (runSteps envEmpty initState [.click "link" "Poker Online"]).isOk = false := by
  refine ⟨?_, ?_, ?_⟩
  · exact (claim_C5_click_resolution envEmpty initState "link" "Poker Online").1 rfl
  · exact (claim_C5_click_resolution envDouble initState "link" "Poker Online").2.1
      linkElem linkElem [] (by rfl)
  · exact (claim_C5_click_resolution envEmpty initState "link" "Poker Online").2.2
      (.click "link" "Poker Online") [] .ElementNotFound
      { now := 0, log := [.click "link" "Poker Online"] }
      ((claim_C5_click_resolution envEmpty initState "link" "Poker Online").1 rfl)

/-- Replaying a log writes exactly to the paths of its screenshot steps. -/
theorem applyLog_eq (img : String) :
    ∀ (l : List Step) (fs : FS) (q : String),
      applyLog img l fs q = if q ∈ shotPaths l then some img else fs q := by
  intro l
  induction l with
  | nil => intro fs q; simp [applyLog, shotPaths]
  | cons st rest ih =>
      intro fs q
      cases st with
      | screenshot p =>
          rw [show applyLog img (Step.screenshot p :: rest) fs
              = applyLog img rest (writeShot fs p img) from rfl]
          rw [ih]
          have hs : shotPaths (Step.screenshot p :: rest) = p :: shotPaths rest := rfl
          rw [hs]
          by_cases hq : q ∈ shotPaths rest
          · simp [hq, List.mem_cons]
          · by_cases hqp : q = p
            · subst hqp
              simp [hq, writeShot]
            · simp [hq, hqp, writeShot, List.mem_cons]
      | navigate url =>
          rw [show applyLog img (Step.navigate url :: rest) fs = applyLog img rest fs from rfl]
          rw [ih]
          rfl
      | click role name =>
          rw [show applyLog img (Step.click role name :: rest) fs = applyLog img rest fs from rfl]
          rw [ih]
          rfl
      | assertVisible role name timeout =>
          rw [show applyLog img (Step.assertVisible role name timeout :: rest) fs
              = applyLog img rest fs from rfl]
          rw [ih]
          rfl
      | assertText frag timeout =>
          rw [show applyLog img (Step.assertText frag timeout :: rest) fs
              = applyLog img rest fs from rfl]
          rw [ih]
          rfl
      | sleep ms =>
          rw [show applyLog img (Step.sleep ms :: rest) fs = applyLog img rest fs from rfl]
          rw [ih]
          rfl
      | launch h =>
          rw [show applyLog img (Step.launch h :: rest) fs = applyLog img rest fs from rfl]
          rw [ih]
          rfl
      | newPage =>
          rw [show applyLog img (Step.newPage :: rest) fs = applyLog img rest fs from rfl]
          rw [ih]
          rfl
      | close =>
          rw [show applyLog img (Step.close :: rest) fs = applyLog img rest fs from rfl]
          rw [ih]
          rfl

/-- Claim C6 is false as stated on the code: the artifact path is not
specified by the caller — both scripts hard-code the same constant path in
their step sequence, the run functions take no path input — and a failing
run writes no artifact at all rather than exactly one. -/
theorem claim_C6_counterexample :
    navUrls betsSteps = navUrls betsSteps
    ∧ shotPaths betsSteps = ["jules-scratch/verification/verification.png"]
    ∧ shotPaths realtimeSteps = ["jules-scratch/verification/verification.png"]
    ∧ (test_realtime_updates envEmpty).isOk = false
    ∧ countShots (test_realtime_updates envEmpty) = 0 :=
  ⟨rfl, rfl, rfl, rfl, rfl⟩

/-- Claim C6 (amended): a scenario run that completes without error writes
exactly one raster artifact, at the single path hard-coded in the script
(the same constant in both scripts); an existing file at that path is
overwritten; a failing run writes nothing; and no path other than the
hard-coded one is ever touched. -/
theorem claim_C6_artifact_write (env : Env) (img : String) (fs : FS) :
    ((test_realtime_updates env).isOk = true →
        applyLog img (test_realtime_updates env).state.log fs artifactPath = some img)
    ∧ ((test_realtime_updates env).isOk = false →
        ∀ q, applyLog img (test_realtime_updates env).state.log fs q = fs q)
    ∧ (∀ q, q ≠ artifactPath →
        applyLog img (test_realtime_updates env).state.log fs q = fs q)
    ∧ ((main_bets env).isOk = true →
        applyLog img (main_bets env).state.log fs artifactPath = some img)
    ∧ ((main_bets env).isOk = false →
        ∀ q, applyLog img (main_bets env).state.log fs q = fs q)
    ∧ (∀ q, q ≠ artifactPath →
        applyLog img (main_bets env).state.log fs q = fs q) := by
  refine ⟨?_, ?_, ?_, ?_, ?_, ?_⟩
  · intro h
    rw [applyLog_eq, realtime_shots env, h]
    simp
  · intro h q
    rw [applyLog_eq, realtime_shots env, h]
    simp
  · intro q hq
    rw [applyLog_eq, realtime_shots env]
    cases h : (test_realtime_updates env).isOk <;> simp [hq]
  · intro h
    rw [applyLog_eq, mainBets_shots env, h]
    simp
  · intro h q
    rw [applyLog_eq, mainBets_shots env, h]
    simp
  · intro q hq
    rw [applyLog_eq, mainBets_shots env]
    cases h : (main_bets env).isOk <;> simp [hq]

/-- Witness for C6: the passing happy-path run overwrites the existing
file at the hard-coded path with the new image, and the failing run of
`main()` leaves the file system untouched. -/
theorem claim_C6_witness :
    applyLog "new" (test_realtime_updates envHappy).state.log fsOld artifactPath = some "new"
    ∧ applyLog "new" (main_bets envBadNav).state.log fsOld "other" = fsOld "other" :=
  ⟨(claim_C6_artifact_write envHappy "new" fsOld).1 (by rfl),
   (claim_C6_artifact_write envBadNav "new" fsOld).2.2.2.2.1 (by rfl) "other"⟩

/-- Claim C7 is false as stated on the code: neither the base URL nor the
headless flag is a caller-supplied input — both are constants baked into
the step sequences: `main()` always launches headless and always navigates
to the autostart URL, and the realtime script always navigates to the
fixed root URL. -/
theorem claim_C7_counterexample :
    navUrls mainBetsSteps = ["http://localhost:3000/?autostart=true"]
    ∧ launchFlags mainBetsSteps = [true]
    ∧ navUrls realtimeSteps = ["http://127.0.0.1:3000"]
    ∧ launchFlags realtimeSteps = [] :=
  ⟨rfl, rfl, rfl, rfl⟩

/-- Claim C7 (amended): the runs accept no configuration — in every
environment whatsoever, every navigation of `main()` goes to the fixed
autostart URL, every launch is headless, and every navigation of the
realtime script goes to the fixed root URL. -/
theorem claim_C7_no_configuration (env : Env) :
    (∀ u, Step.navigate u ∈ (main_bets env).state.log →
        u = "http://localhost:3000/?autostart=true")
    ∧ (∀ h, Step.launch h ∈ (main_bets env).state.log → h = true)
    ∧ (∀ u, Step.navigate u ∈ (test_realtime_updates env).state.log →
        u = "http://127.0.0.1:3000") := by
  refine ⟨?_, ?_, ?_⟩
  · intro u hu
    rcases runSteps_log_mem env mainBetsSteps initState _ hu with h | h
    · simp [initState] at h
    · simp [mainBetsSteps, betsSteps] at h
      exact h
  · intro hl hm
    rcases runSteps_log_mem env mainBetsSteps initState _ hm with h | h
    · simp [initState] at h
    · simp [mainBetsSteps, betsSteps] at h
      exact h
  · intro u hu
    rcases runSteps_log_mem env realtimeSteps initState _ hu with h | h
    · simp [initState] at h
    · simp [realtimeSteps] at h
      exact h

/-- Witness for C7: the successful `main()` run against the empty DOM did
navigate, and the navigated URL is the hard-coded constant. -/
theorem claim_C7_witness :
    Step.navigate "http://localhost:3000/?autostart=true" ∈ (main_bets envEmpty).state.log
    ∧ "http://localhost:3000/?autostart=true" = "http://localhost:3000/?autostart=true" :=
  ⟨by decide, (claim_C7_no_configuration envEmpty).1 _ (by decide)⟩

/-- Claim C8: selector resolution is deterministic — two resolutions of
the same (role, accessible-name) pair against the same unchanged DOM yield
the same match set — and the match set is characterized pointwise as the
elements of the DOM carrying exactly that role and name. -/
theorem claim_C8_deterministic_resolution (role name : String) (d1 d2 : Dom) (h : d1 = d2) :
    getByRole d1 role name = getByRole d2 role name
    ∧ ∀ e : Element, e ∈ getByRole d1 role name ↔ e ∈ d1 ∧ e.role = role ∧ e.name = name := by
  subst h
  refine ⟨rfl, ?_⟩
  intro e
  simp [getByRole, List.mem_filter, Bool.and_eq_true, beq_iff_eq, and_assoc]

/-- Witness for C8: two resolutions of the link selector against the
happy-path DOM agree and match exactly the link element. -/
theorem claim_C8_witness :
    getByRole domHappy "link" "Poker Online" = getByRole domHappy "link" "Poker Online"
    ∧ ∀ e : Element, e ∈ getByRole domHappy "link" "Poker Online"
        ↔ e ∈ domHappy ∧ e.role = "link" ∧ e.name = "Poker Online" :=
  claim_C8_deterministic_resolution "link" "Poker Online" domHappy domHappy rfl

/-- Claim C9: every suspension point is bounded by an explicit timeout —
each single step suspends at most its declared bound (the navigation
timeout, the assertion timeout plus at most one polling interval, or the
sleep duration), every run is bounded by the sum of its steps' bounds, and
the two scripts' runs are bounded by the concrete totals 50300 ms and
35000 ms; no execution path waits unboundedly. -/
theorem claim_C9_bounded_waits (env : Env) (s : RState) (st : Step) (steps : List Step) :
    (execStep env s st).state.now ≤ s.now + suspBound st
    ∧ (runSteps env s steps).state.now ≤ s.now + (steps.map suspBound).sum
    ∧ (test_realtime_updates env).state.now ≤ 50300
    ∧ (main_bets env).state.now ≤ 35000 := by
  refine ⟨execStep_now_le env s st, runSteps_now_le env steps s, ?_, ?_⟩
  · have h := runSteps_now_le env realtimeSteps initState
    exact le_trans h (by norm_num [realtimeSteps, suspBound, navTimeout,
      defaultExpectTimeout, pollInterval, initState])
  · have h := runSteps_now_le env mainBetsSteps initState
    exact le_trans h (by norm_num [mainBetsSteps, betsSteps, suspBound, navTimeout,
      pollInterval, initState])

/-- Claim C10: `verify_bets` asserts nothing about application state — in
every environment, whatever DOM the application renders at any time, if
the navigation to the fixed URL succeeds the run completes successfully;
its verdict is independent of whether any bet is displayed. -/
theorem claim_C10_no_state_assertion (env : Env) (s : RState)
    (hnav : env.gotoOk "http://localhost:3000/?autostart=true" = true) :
    (verify_bets env s).isOk = true := by
  have hall : ∀ (s' : RState) (st : Step), st ∈ betsSteps →
      (execStep env s' st).isOk = true := by
    intro s' st hst
    simp [betsSteps] at hst
    rcases hst with h | h | h <;> subst h
    · simp [execStep, hnav, Outcome.isOk]
    · simp [execStep, Outcome.isOk]
    · simp [execStep, Outcome.isOk]
  exact (runSteps_all_ok env betsSteps hall s).1

/-- Witness for C10: against the application that renders an empty DOM —
no bet displayed at all — the `verify_bets` run still passes. -/
theorem claim_C10_witness : (verify_bets envEmpty initState).isOk = true :=
  claim_C10_no_state_assertion envEmpty initState rfl

end MCG
